import Mathlib

/-
Verification of the operation scheduler of the service-manager repository
(src/operations/scheduler.go) against its natural-language specification.

The Go code is embedded shallowly:
  * machine state (the repository contents, the worker pool counters and the
    spawned workers) is passed explicitly through every function;
  * time is a natural number `now`; the zero `time.Time` is the number 0;
  * fallible calls return `Option SMError`; a Go panic is a distinguished
    constructor of the result type of the function in which it occurs;
  * the repository (an external collaborator) is modelled as in-memory lists
    of operation and resource rows; `Get` misses are `none`, other storage
    errors of the external store are not modelled.
-/

namespace SM

/-- `types.OperationType`: a string in Go; the three known values plus an
`other` constructor for any remaining string. -/
inductive OpType
  | create
  | update
  | delete
  | other (typeName : String)
deriving DecidableEq

/-- `types.OperationState`: the three states used by the scheduler. -/
inductive OpState
  | IN_PROGRESS
  | SUCCEEDED
  | FAILED
deriving DecidableEq

/-- Errors produced by the scheduler: `util.HTTPError` values and plain
`fmt.Errorf` errors. -/
inductive SMError
  | http (errorType description : String) (statusCode : Nat)
  | generic (message : String)
deriving DecidableEq

/-- `types.RelatedType`: one entry of `Operation.TransitiveResources`. -/
structure RelatedType where
  id : String
  relType : String
  operationType : OpType
deriving DecidableEq

/-- `types.Operation` restricted to the fields the scheduler reads or writes.
`deletionScheduled = 0` models the zero `time.Time` (`IsZero`). `errors = none`
models an empty `Errors` payload. -/
structure Operation where
  id : String
  createdAt : Nat
  updatedAt : Nat
  opType : OpType
  state : OpState
  resourceID : String
  resourceType : String
  reschedule : Bool
  deletionScheduled : Nat
  errors : Option SMError
  transitiveResources : List RelatedType
  pagingSequence : Nat
deriving DecidableEq

/-- A stored resource object: `types.Object` restricted to what the scheduler
uses (`GetType`, `GetID`, `SetReady`). -/
structure Obj where
  objType : String
  id : String
  ready : Bool
deriving DecidableEq

/-- The repository contents. `nextSeq` models the monotonic `paging_sequence`
assigned by the store on create. -/
structure DB where
  operations : List Operation
  resources : List Obj
  nextSeq : Nat
deriving DecidableEq

/-- `repository.Get(OperationType, ByField(id,...))`. -/
def DB.getOperationByID (db : DB) (opID : String) : Option Operation :=
  db.operations.find? (fun o => o.id == opID)

/-- `getResourceLastOperation`: the operation with the greatest
`paging_sequence` among those with the given `resource_id`. -/
def DB.lastOperationFor (db : DB) (rid : String) : Option Operation :=
  db.operations.foldl
    (fun acc o =>
      if o.resourceID == rid then
        match acc with
        | none => some o
        | some a => if a.pagingSequence ≤ o.pagingSequence then some o else some a
      else acc)
    none

/-- `repository.Create` for an operation row: appends the row with a fresh
`paging_sequence`. -/
def DB.createOperation (db : DB) (op : Operation) : DB :=
  { db with
    operations := db.operations ++ [{ op with pagingSequence := db.nextSeq }]
    nextSeq := db.nextSeq + 1 }

/-- `repository.Update` for an operation row: replaces the row with the same id
and bumps its `updated_at` (the liveness heartbeat). -/
def DB.updateOperation (db : DB) (now : Nat) (op : Operation) : DB :=
  { db with
    operations := db.operations.map
      (fun o => if o.id == op.id then { op with updatedAt := now } else o) }

/-- `repository.Get` for a resource by `(type, id)`. -/
def DB.getResource (db : DB) (objectType objectID : String) : Option Obj :=
  db.resources.find? (fun r => r.objType == objectType && r.id == objectID)

/-- `repository.Update` for a resource row: replaces every row with the same
`(type, id)` key. -/
def DB.updateResourceRow (db : DB) (o : Obj) : DB :=
  { db with
    resources := db.resources.map
      (fun r => if r.objType == o.objType && r.id == o.id then o else r) }

/-- `repository.Delete(type, ByField(id,...))`: the Bool reports whether a row
was found (Go reports `ErrNotFoundInStorage` otherwise). -/
def DB.deleteResource (db : DB) (objectType objectID : String) : Bool × DB :=
  if db.resources.any (fun r => r.objType == objectType && r.id == objectID) then
    (true,
      { db with
        resources :=
          db.resources.filter (fun r => !(r.objType == objectType && r.id == objectID)) })
  else (false, db)

/-- The `Settings` and pool size the `Scheduler` is constructed with. -/
structure Config where
  actionTimeout : Nat
  reconciliationOperationTimeout : Nat
  reschedulingDelay : Nat
  poolSize : Nat
deriving DecidableEq

/-- Identifies the storage action a spawned worker will run: an opaque
caller-supplied action, or the delete action synthesized by orphan mitigation
(whose semantics is `deletionActionSem`). -/
inductive ActionTag
  | external (label : String)
  | syntheticDelete (resourceType resourceID : String)
deriving DecidableEq

/-- The scheduler's mutable state: the repository, the number of held worker
slots (`len(s.workers)`), the wait-group counter and the workers spawned so
far (in spawn order). -/
structure SchedState where
  db : DB
  busyWorkers : Nat
  wgCount : Nat
  pending : List (Operation × ActionTag)
deriving DecidableEq

/-- The 422 conflict returned for overlapping non-delete work. -/
def concurrentOperationErr : SMError :=
  SMError.http "ConcurrentOperationInProgress"
    "Another concurrent operation in progress for this resource" 422

/-- The 422 conflict returned when a deletion blocks the new operation. -/
def deletionInProgressErr : SMError :=
  SMError.http "ConcurrentOperationInProgress"
    "Deletion is currently in progress for this resource" 422

/-- The error returned for an operation type outside CREATE/UPDATE/DELETE. -/
def unknownTypeErr (typeName : String) : SMError :=
  SMError.generic ("operation type " ++ typeName ++ " is unknown type")

/-- The 503 returned when the worker pool is saturated. -/
def serviceUnavailableErr : SMError :=
  SMError.http "ServiceUnavailable"
    "Failed to schedule job. Server is busy - try again in a few minutes." 503

/-- The rejection of re-executing an already executed operation id. -/
def alreadyExecutedErr : SMError :=
  SMError.generic "operation with this id was already executed"

/-- The synthetic error written when a worker panics. -/
def jobInterruptedErr : SMError :=
  SMError.http "InternalServerError" "job interrupted" 500

/-- The error produced when re-fetching the executing operation fails. -/
def refetchFailedErr : SMError :=
  SMError.generic "failed to re-fetch currently executing operation from db"

/-- The error returned when the lifecycle context cancels the mitigation wait. -/
def smCtxCanceledErr : SMError :=
  SMError.generic "sm context canceled"

/-- The Go runtime message of a nil-pointer dereference panic. -/
def nilDerefPanicMsg : String :=
  "runtime error: invalid memory address or nil pointer dereference"

/-- `checkForConcurrentOperations`: the concurrency gate. `none` admits. -/
def checkForConcurrentOperations (cfg : Config) (now : Nat)
    (operation lastOperation : Operation) : Option SMError :=
  let isDeletionScheduled : Bool := decide (lastOperation.deletionScheduled ≠ 0)
  let isLastOpInProgress : Bool :=
    decide (lastOperation.state = OpState.IN_PROGRESS) &&
      decide (now < lastOperation.updatedAt + cfg.actionTimeout)
  let isAReschedule : Bool := lastOperation.reschedule && operation.reschedule
  match lastOperation.opType, operation.opType with
  | OpType.create, OpType.create =>
    if isLastOpInProgress && !isDeletionScheduled && !isAReschedule then
      some concurrentOperationErr
    else none
  | OpType.create, OpType.update =>
    if isLastOpInProgress then some concurrentOperationErr else none
  | OpType.create, OpType.delete => none
  | OpType.create, OpType.other t => some (unknownTypeErr t)
  | OpType.update, OpType.create =>
    if isLastOpInProgress then some concurrentOperationErr else none
  | OpType.update, OpType.update =>
    if isLastOpInProgress && !isDeletionScheduled && !isAReschedule then
      some concurrentOperationErr
    else none
  | OpType.update, OpType.delete => none
  | OpType.update, OpType.other t => some (unknownTypeErr t)
  | OpType.delete, OpType.create =>
    if isLastOpInProgress || isDeletionScheduled then some deletionInProgressErr else none
  | OpType.delete, OpType.update =>
    if isLastOpInProgress || isDeletionScheduled then some deletionInProgressErr else none
  | OpType.delete, OpType.delete =>
    if isLastOpInProgress && !isDeletionScheduled && !isAReschedule then
      some deletionInProgressErr
    else none
  | OpType.delete, OpType.other t => some (unknownTypeErr t)
  | OpType.other t, _ => some (unknownTypeErr t)

/-- Classifies a gate result: admitted, a `ConcurrentOperationInProgress`
rejection, or the unknown-type error. -/
inductive GateVerdict
  | allow
  | reject
  | unknownType
deriving DecidableEq

/-- Maps the gate's returned error to its verdict class. -/
def gateClassify : Option SMError → GateVerdict
  | none => GateVerdict.allow
  | some (SMError.http errorType _ _) =>
    if errorType == "ConcurrentOperationInProgress" then GateVerdict.reject
    else GateVerdict.unknownType
  | some (SMError.generic _) => GateVerdict.unknownType

/-- Modelled from the spec: the decision table of spec §4.2, written from the
spec's words — reject iff the cell condition holds, admit otherwise, unknown
type on either side fails with the unknown-type error. -/
def specGateVerdict (cfg : Config) (now : Nat)
    (lastOperation operation : Operation) : GateVerdict :=
  let isDeletionScheduled : Bool := decide (lastOperation.deletionScheduled ≠ 0)
  let isLastInProgress : Bool :=
    decide (lastOperation.state = OpState.IN_PROGRESS) &&
      decide (now < lastOperation.updatedAt + cfg.actionTimeout)
  let isReschedule : Bool := lastOperation.reschedule && operation.reschedule
  match lastOperation.opType, operation.opType with
  | OpType.create, OpType.create =>
    if isLastInProgress && !isDeletionScheduled && !isReschedule then GateVerdict.reject
    else GateVerdict.allow
  | OpType.create, OpType.update =>
    if isLastInProgress then GateVerdict.reject else GateVerdict.allow
  | OpType.create, OpType.delete => GateVerdict.allow
  | OpType.update, OpType.create =>
    if isLastInProgress then GateVerdict.reject else GateVerdict.allow
  | OpType.update, OpType.update =>
    if isLastInProgress && !isDeletionScheduled && !isReschedule then GateVerdict.reject
    else GateVerdict.allow
  | OpType.update, OpType.delete => GateVerdict.allow
  | OpType.delete, OpType.create =>
    if isLastInProgress || isDeletionScheduled then GateVerdict.reject else GateVerdict.allow
  | OpType.delete, OpType.update =>
    if isLastInProgress || isDeletionScheduled then GateVerdict.reject else GateVerdict.allow
  | OpType.delete, OpType.delete =>
    if isLastInProgress && !isDeletionScheduled && !isReschedule then GateVerdict.reject
    else GateVerdict.allow
  | _, OpType.other _ => GateVerdict.unknownType
  | OpType.other _, _ => GateVerdict.unknownType

/-- `storeOrUpdateOperation`: persistence of an admitted operation. -/
def storeOrUpdateOperation (now : Nat) (db : DB) (operation : Operation)
    (lastOperation : Option Operation) : Option SMError × DB :=
  match lastOperation with
  | none => (none, db.createOperation operation)
  | some lastOp =>
    if operation.id ≠ lastOp.id then (none, db.createOperation operation)
    else if operation.reschedule || decide (operation.deletionScheduled ≠ 0) then
      (none, db.updateOperation now operation)
    else (some alreadyExecutedErr, db)

/-- Modelled from the spec: `types.Operation.Validate` is not under src/;
spec §3 says `Type ∈ {CREATE, UPDATE, DELETE}; rejects any other value`. -/
def operationValidate (operation : Operation) : Bool :=
  match operation.opType with
  | OpType.create => true
  | OpType.update => true
  | OpType.delete => true
  | OpType.other _ => false

/-- `executeOperationPreconditions`: rejects `SUCCEEDED` input, validates,
fetches the last operation for the resource, runs the gate, then stores. -/
def executeOperationPreconditions (cfg : Config) (now : Nat) (db : DB)
    (operation : Operation) : Option SMError × DB :=
  if operation.state = OpState.SUCCEEDED then
    (some (SMError.generic "scheduling for operations of type succeeded is not allowed"), db)
  else if operationValidate operation = false then
    (some (SMError.generic "scheduled operation is not valid"), db)
  else
    match db.lastOperationFor operation.resourceID with
    | none => storeOrUpdateOperation now db operation none
    | some lastOp =>
      match checkForConcurrentOperations cfg now operation lastOp with
      | some e => (some e, db)
      | none => storeOrUpdateOperation now db operation (some lastOp)

/-- `ScheduleAsyncStorageAction` up to the point where the worker goroutine is
spawned: non-blocking admission into the bounded pool, preconditions (the slot
is released again if they fail), wait-group increment, worker spawn. The
spawned worker's body is `runWorker`. -/
def scheduleAsync (cfg : Config) (now : Nat) (s : SchedState)
    (operation : Operation) (act : ActionTag) : Option SMError × SchedState :=
  if s.busyWorkers < cfg.poolSize then
    match executeOperationPreconditions cfg now s.db operation with
    | (some e, _) => (some e, s)
    | (none, db2) =>
      (none,
        { s with
          db := db2
          busyWorkers := s.busyWorkers + 1
          wgCount := s.wgCount + 1
          pending := s.pending ++ [(operation, act)] })
  else (some serviceUnavailableErr, s)

/-- The append-once error write of `updateOperationState`: a new payload is
stored only when the operation has no errors yet. -/
def appendOnceErrors (old opErr : Option SMError) : Option SMError :=
  match opErr with
  | none => old
  | some e => if old.isNone then some e else old

/-- `updateOperationState`: mutates the in-memory operation (state, append-once
errors) and persists it; the repository `Update` bumps `updated_at`. Returns
the mutated in-memory operation alongside the new repository contents. -/
def updateOperationState (now : Nat) (db : DB) (operation : Operation)
    (state : OpState) (opErr : Option SMError) : Operation × DB :=
  let op2 : Operation :=
    { operation with state := state, errors := appendOnceErrors operation.errors opErr }
  (op2, db.updateOperation now op2)

/-- `updateResource` specialised to the only update functions the scheduler
uses (`SetReady b`). A `none` object models Go invoking `SetReady` on a nil
interface, which panics: the result is `none`. -/
def updateResourceReady (db : DB) (objectAfterAction : Option Obj)
    (ready : Bool) : Option (Obj × DB) :=
  match objectAfterAction with
  | none => none
  | some o =>
    let o2 : Obj := { o with ready := ready }
    some (o2, db.updateResourceRow o2)

/-- `fetchAndUpdateResource`: fetches the object by `(type, id)`, swallowing
`ErrNotFoundInStorage`, and updates its ready flag. -/
def fetchAndUpdateResource (db : DB) (objectType objectID : String)
    (ready : Bool) : DB :=
  match db.getResource objectType objectID with
  | none => db
  | some o =>
    match updateResourceReady db (some o) ready with
    | some (_, db2) => db2
    | none => db

/-- `updateTransitiveResources`: updates the ready flag of every transitive
resource whose original op-type was CREATE, in list order. -/
def updateTransitiveResources (db : DB) (resources : List RelatedType)
    (ready : Bool) : DB :=
  match resources with
  | [] => db
  | trR :: rest =>
    let db2 :=
      if trR.operationType = OpType.create then
        fetchAndUpdateResource db trR.relType trR.id ready
      else db
    updateTransitiveResources db2 rest ready

/-- The final state computed by `handleActionResponseSuccess`. -/
def successFinalState (operation : Operation) : OpState :=
  if operation.opType ≠ OpType.delete ∧ operation.deletionScheduled ≠ 0 then
    OpState.FAILED
  else OpState.SUCCEEDED

/-- Result of the success-path transaction: normal completion with the object
handed back to the caller, or a Go panic inside the transaction (which rolls
the transaction back and propagates). -/
inductive SuccessResult
  | ok (objectAfterAction : Option Obj)
  | panicked (message : String)
deriving DecidableEq

/-- `handleActionResponseSuccess`: one transaction that computes the final
state, clears `Errors` on success, unconditionally clears `DeletionScheduled`,
flips `Ready` to true for a succeeded CREATE (primary object and transitive
CREATE resources) and persists the operation. -/
def handleActionResponseSuccess (now : Nat) (db : DB) (actionObject : Option Obj)
    (opAfterJob : Operation) : SuccessResult × DB :=
  let finalState := successFinalState opAfterJob
  let op1 : Operation :=
    if finalState = OpState.SUCCEEDED then { opAfterJob with errors := none }
    else opAfterJob
  let op2 : Operation := { op1 with deletionScheduled := 0 }
  if op2.opType = OpType.create ∧ finalState = OpState.SUCCEEDED then
    match updateResourceReady db actionObject true with
    | none => (SuccessResult.panicked nilDerefPanicMsg, db)
    | some (updatedObject, db1) =>
      let db2 := updateTransitiveResources db1 op2.transitiveResources true
      let db3 := (updateOperationState now db2 op2 finalState none).2
      (SuccessResult.ok (some updatedObject), db3)
  else
    let db3 := (updateOperationState now db op2 finalState none).2
    (SuccessResult.ok actionObject, db3)

/-- The transaction of `handleActionResponseFailure`: flips `Ready` to false
for a CREATE whose refetched state is already FAILED (primary, not-found
ignored, plus transitive CREATE resources) and writes the operation as FAILED
with the action error. Returns the mutated in-memory operation. -/
def failureTransaction (now : Nat) (db : DB) (actionError : SMError)
    (opAfterJob : Operation) : Operation × DB :=
  let db1 :=
    if opAfterJob.opType = OpType.create ∧ opAfterJob.state = OpState.FAILED then
      updateTransitiveResources
        (fetchAndUpdateResource db opAfterJob.resourceType opAfterJob.resourceID false)
        opAfterJob.transitiveResources false
    else db
  updateOperationState now db1 opAfterJob OpState.FAILED (some actionError)

/-- `isDeleteRescheduleRequired`: orphan mitigation is needed when a deletion
is scheduled, its reconciliation window has not elapsed and the operation did
not succeed. -/
def mitigationRequired (cfg : Config) (now : Nat) (op : Operation) : Bool :=
  decide (op.deletionScheduled ≠ 0) &&
    decide (now < op.deletionScheduled + cfg.reconciliationOperationTimeout) &&
    decide (op.state ≠ OpState.SUCCEEDED)

/-- Renders an error the way Go interpolates it into a message. -/
def SMError.render : SMError → String
  | SMError.http _ description _ => description
  | SMError.generic message => message

/-- The 502 composed when orphan-mitigation re-admission fails. -/
def brokerError (actionError orphanMitigationError : SMError) : SMError :=
  SMError.http "BrokerError"
    ("job failed with " ++ actionError.render ++
      " and orphan mitigation failed with " ++ orphanMitigationError.render) 502

/-- Semantics of the delete action synthesized by orphan mitigation: deletes
the resource by `(type, id)` and swallows `ErrNotFoundInStorage`, always
returning a nil object and a nil error. -/
def deletionActionSem (resourceType resourceID : String) (db : DB) :
    (Option Obj × Option SMError) × DB :=
  ((none, none), (db.deleteResource resourceType resourceID).2)

/-- `handleActionResponseFailure`: runs the failure transaction, then (outside
the transaction) evaluates the mitigation condition; when required it waits
`ReschedulingDelay` (`smCtxDone` models the lifecycle context cancelling the
wait) and re-admits the same operation via `scheduleAsync` with the synthesized
delete action, composing a `BrokerError` when that re-admission fails;
otherwise the original action error is returned. -/
def handleActionResponseFailure (cfg : Config) (now : Nat) (s : SchedState)
    (smCtxDone : Bool) (actionError : SMError) (opAfterJob : Operation) :
    SMError × SchedState :=
  let opFailed := (failureTransaction now s.db actionError opAfterJob).1
  let s1 : SchedState := { s with db := (failureTransaction now s.db actionError opAfterJob).2 }
  if mitigationRequired cfg now opFailed then
    if smCtxDone then (smCtxCanceledErr, s1)
    else
      match scheduleAsync cfg now s1 opFailed
          (ActionTag.syntheticDelete opAfterJob.resourceType opAfterJob.resourceID) with
      | (some orphanErr, s2) => (brokerError actionError orphanErr, s2)
      | (none, s2) => (actionError, s2)
  else (actionError, s1)

/-- Outcome of `handleActionResponse` towards its caller. -/
inductive HandleOutcome
  | ok (objectAfterAction : Option Obj)
  | failed (e : SMError)
  | panicked (message : String)
deriving DecidableEq

/-- `handleActionResponse`: re-fetches the operation (a failed re-fetch
force-marks the in-memory operation FAILED and exits), merges the pre-action
`TransitiveResources` onto the refetched copy, then dispatches on
`(actionError, Reschedule)`: failure path, success path, or keep IN_PROGRESS
returning the action object. -/
def handleActionResponse (cfg : Config) (now : Nat) (s : SchedState)
    (smCtxDone : Bool) (actionObject : Option Obj) (actionError : Option SMError)
    (opBeforeJob : Operation) : HandleOutcome × SchedState :=
  match s.db.getOperationByID opBeforeJob.id with
  | none =>
    let db2 := (updateOperationState now s.db opBeforeJob OpState.FAILED
      (some refetchFailedErr)).2
    (HandleOutcome.failed refetchFailedErr, { s with db := db2 })
  | some opFetched =>
    let opAfterJob : Operation :=
      { opFetched with transitiveResources := opBeforeJob.transitiveResources }
    match actionError with
    | some e =>
      match handleActionResponseFailure cfg now s smCtxDone e opAfterJob with
      | (rErr, s2) => (HandleOutcome.failed rErr, s2)
    | none =>
      if opAfterJob.reschedule = false then
        match handleActionResponseSuccess now s.db actionObject opAfterJob with
        | (SuccessResult.panicked m, db2) => (HandleOutcome.panicked m, { s with db := db2 })
        | (SuccessResult.ok o, db2) => (HandleOutcome.ok o, { s with db := db2 })
      else (HandleOutcome.ok actionObject, s)

/-- What a user-supplied action did: returned `(object, error)`, or panicked. -/
inductive ActionOutcome
  | ret (objectAfterAction : Option Obj) (actionError : Option SMError)
  | panics (message : String)
deriving DecidableEq

/-- How an async worker exited: the scheduler state it left behind, whether
the worker slot was released (`<-s.workers`), whether `wg.Done` ran, and
whether a second panic escaped the deferred recover handler. -/
structure WorkerExit where
  state : SchedState
  slotReleased : Bool
  wgDone : Bool
  secondaryPanic : Bool
deriving DecidableEq

/-- The deferred recover handler of the async worker: re-fetches the operation
and writes it FAILED with the synthetic `job interrupted` error, then releases
the slot and decrements the wait-group. When the re-fetch fails it writes the
stale in-memory operation FAILED with the re-fetch error and returns a nil
operation, which the handler then passes to `updateOperationState`: the nil
dereference panics a second time, skipping the slot release and the
wait-group decrement. -/
def workerPanicHandler (now : Nat) (s : SchedState) (opBeforeJob : Operation) :
    WorkerExit :=
  match s.db.getOperationByID opBeforeJob.id with
  | some opRefetched =>
    let db2 := (updateOperationState now s.db opRefetched OpState.FAILED
      (some jobInterruptedErr)).2
    let s2 : SchedState :=
      { db := db2, busyWorkers := s.busyWorkers - 1, wgCount := s.wgCount - 1,
        pending := s.pending }
    ⟨s2, true, true, false⟩
  | none =>
    let db2 := (updateOperationState now s.db opBeforeJob OpState.FAILED
      (some refetchFailedErr)).2
    ⟨{ s with db := db2 }, false, false, true⟩

/-- The body of the goroutine spawned by `ScheduleAsyncStorageAction`: runs
the action (its behaviour is the `ActionOutcome` input), reconciles via
`handleActionResponse`, and on any panic runs the deferred recover handler.
On the normal paths the deferred function releases the worker slot and
decrements the wait-group. -/
def runWorker (cfg : Config) (now : Nat) (s : SchedState) (smCtxDone : Bool)
    (opBeforeJob : Operation) (outcome : ActionOutcome) : WorkerExit :=
  match outcome with
  | ActionOutcome.panics _ => workerPanicHandler now s opBeforeJob
  | ActionOutcome.ret obj err =>
    match handleActionResponse cfg now s smCtxDone obj err opBeforeJob with
    | (HandleOutcome.panicked _, s2) => workerPanicHandler now s2 opBeforeJob
    | (HandleOutcome.ok _, s2) =>
      ⟨{ s2 with busyWorkers := s2.busyWorkers - 1, wgCount := s2.wgCount - 1 },
        true, true, false⟩
    | (HandleOutcome.failed _, s2) =>
      ⟨{ s2 with busyWorkers := s2.busyWorkers - 1, wgCount := s2.wgCount - 1 },
        true, true, false⟩

/-- Readiness of every stored resource row at a `(type, id)` key. -/
def keyReady (b : Bool) (db : DB) (objectType objectID : String) : Prop :=
  ∀ r ∈ db.resources, r.objType = objectType → r.id = objectID → r.ready = b

/-- Every stored operation row with the given id has the given state. -/
def opRowsHaveState (db : DB) (opID : String) (st : OpState) : Prop :=
  ∀ o ∈ db.operations, o.id = opID → o.state = st

instance (b : Bool) (db : DB) (t i : String) : Decidable (keyReady b db t i) :=
  inferInstanceAs (Decidable (∀ r ∈ db.resources, r.objType = t → r.id = i → r.ready = b))

instance (db : DB) (opID : String) (st : OpState) : Decidable (opRowsHaveState db opID st) :=
  inferInstanceAs (Decidable (∀ o ∈ db.operations, o.id = opID → o.state = st))

/-- Classification of what `storeOrUpdateOperation` did, observed on its
result: a rejection, a freshly created row, or an in-place update. -/
inductive StoreDecision
  | created
  | updated
  | rejected
deriving DecidableEq

/-- Observes `storeOrUpdateOperation`: rejected when it returns an error,
created when the operation list grew, updated otherwise. -/
def storeDecisionOf (now : Nat) (db : DB) (operation : Operation)
    (lastOperation : Option Operation) : StoreDecision :=
  match storeOrUpdateOperation now db operation lastOperation with
  | (some _, _) => StoreDecision.rejected
  | (none, db2) =>
    if db2.operations.length = db.operations.length + 1 then StoreDecision.created
    else StoreDecision.updated

/-- Modelled from the amended claim: create when there is no last operation or
the ids differ; update in place when the NEW operation is a reschedule or the
NEW operation's `DeletionScheduled` is non-zero; reject otherwise. -/
def storeDecisionAmended (operation : Operation)
    (lastOperation : Option Operation) : StoreDecision :=
  match lastOperation with
  | none => StoreDecision.created
  | some lastOp =>
    if operation.id ≠ lastOp.id then StoreDecision.created
    else if operation.reschedule = true ∨ operation.deletionScheduled ≠ 0 then
      StoreDecision.updated
    else StoreDecision.rejected

/-- A small configuration used by the concrete evaluations. -/
def cfgW : Config :=
  { actionTimeout := 100, reconciliationOperationTimeout := 10,
    reschedulingDelay := 1, poolSize := 2 }

/-- A CREATE operation in progress on resource `binding/r1`. -/
def opW : Operation :=
  { id := "o1", createdAt := 0, updatedAt := 0, opType := OpType.create,
    state := OpState.IN_PROGRESS, resourceID := "r1", resourceType := "binding",
    reschedule := false, deletionScheduled := 0, errors := none,
    transitiveResources := [], pagingSequence := 1 }

/-- The resource `binding/r1`, currently marked ready. -/
def objW : Obj := { objType := "binding", id := "r1", ready := true }

/-- A repository holding `opW` and the ready resource. -/
def dbW : DB := { operations := [opW], resources := [objW], nextSeq := 2 }

/-- An idle scheduler over `dbW`. -/
def sW : SchedState := { db := dbW, busyWorkers := 0, wgCount := 0, pending := [] }

/-- A generic action error. -/
def errBoom : SMError := SMError.generic "boom"

/-- `opW` as refetched during an orphan-mitigation re-drive: already FAILED. -/
def opWF : Operation := { opW with state := OpState.FAILED }

/-- `opW` with a deletion scheduled at time 3. -/
def opWM : Operation := { opW with deletionScheduled := 3 }

/-- A repository whose stored row for `o1` is the FAILED mitigation re-drive. -/
def dbWM : DB :=
  { operations := [{ opWM with state := OpState.FAILED }], resources := [], nextSeq := 2 }

/-- An idle scheduler over `dbWM`. -/
def sWM : SchedState := { db := dbWM, busyWorkers := 0, wgCount := 0, pending := [] }

/-- A last operation with a deletion scheduled, under id `o9`. -/
def lastW : Operation :=
  { opW with id := "o9", resourceID := "r9", deletionScheduled := 5 }

/-- A new submission reusing id `o9` with no reschedule and a zero
`DeletionScheduled` of its own. -/
def newW : Operation :=
  { opW with id := "o9", resourceID := "r9", deletionScheduled := 0 }

/-- A repository holding only `lastW`. -/
def dbW5 : DB := { operations := [lastW], resources := [], nextSeq := 2 }

/-- A scheduler whose pool (size 2) is saturated. -/
def sWFull : SchedState := { db := dbW, busyWorkers := 2, wgCount := 2, pending := [] }

/-- A busy scheduler whose repository does not contain `o1` at all, so the
re-fetch of `opW` fails. -/
def sWEmpty : SchedState :=
  { db := { operations := [], resources := [], nextSeq := 1 },
    busyWorkers := 1, wgCount := 1, pending := [] }

/-- `opW` flagged as a cooperative reschedule. -/
def opWR : Operation := { opW with reschedule := true }

/-- A busy scheduler whose stored row for `o1` is the rescheduling `opWR`. -/
def sWR : SchedState :=
  { db := { operations := [opWR], resources := [], nextSeq := 2 },
    busyWorkers := 1, wgCount := 1, pending := [] }

/-- An unrelated object some action might return. -/
def objB : Obj := { objType := "b", id := "x", ready := false }

/-- `opW` already carrying a root-cause error. -/
def opWE : Operation := { opW with errors := some errBoom }

section Lemmas

/-- A found resource matches the queried key. -/
theorem getResource_some_key {db : DB} {t i : String} {o : Obj}
    (h : db.getResource t i = some o) : o.objType = t ∧ o.id = i := by
  have hp := List.find?_some h
  simp only [Bool.and_eq_true, beq_iff_eq] at hp
  exact hp

/-- A missed resource lookup means no stored row has the queried key. -/
theorem getResource_none_key {db : DB} {t i : String}
    (h : db.getResource t i = none) :
    ∀ r ∈ db.resources, ¬(r.objType = t ∧ r.id = i) := by
  intro r hr hk
  have := List.find?_eq_none.mp h r hr
  simp only [Bool.and_eq_true, beq_iff_eq] at this
  exact this ⟨hk.1, hk.2⟩

/-- Writing a row whose ready flag is `b` establishes `keyReady b` at its key. -/
theorem keyReady_updateResourceRow_self {db : DB} {o : Obj} {b : Bool}
    (h : o.ready = b) : keyReady b (db.updateResourceRow o) o.objType o.id := by
  intro r hr h1 h2
  simp only [DB.updateResourceRow, List.mem_map] at hr
  obtain ⟨a, _, rfl⟩ := hr
  by_cases hc : (a.objType == o.objType && a.id == o.id) = true
  · simpa [hc] using h
  · simp only [hc, if_neg, Bool.not_eq_true] at h1 h2 ⊢
    simp only [Bool.and_eq_true, beq_iff_eq] at hc
    exact absurd ⟨h1, h2⟩ hc

/-- Writing a row whose ready flag is `b` preserves `keyReady b` anywhere. -/
theorem keyReady_updateResourceRow_preserve {db : DB} {o : Obj} {b : Bool}
    {t i : String} (h : o.ready = b) (hk : keyReady b db t i) :
    keyReady b (db.updateResourceRow o) t i := by
  intro r hr h1 h2
  simp only [DB.updateResourceRow, List.mem_map] at hr
  obtain ⟨a, ha, rfl⟩ := hr
  by_cases hc : (a.objType == o.objType && a.id == o.id) = true
  · simpa [hc] using h
  · simp only [hc, if_neg, Bool.not_eq_true] at h1 h2 ⊢
    exact hk a ha h1 h2

/-- `fetchAndUpdateResource` establishes `keyReady b` at the fetched key. -/
theorem keyReady_fetchAndUpdateResource_self (db : DB) (t i : String) (b : Bool) :
    keyReady b (fetchAndUpdateResource db t i b) t i := by
  unfold fetchAndUpdateResource
  cases h : db.getResource t i with
  | none =>
    intro r hr h1 h2
    exact absurd ⟨h1, h2⟩ (getResource_none_key h r hr)
  | some o =>
    obtain ⟨ht, hi⟩ := getResource_some_key h
    simp only [updateResourceReady]
    have := @keyReady_updateResourceRow_self db { o with ready := b } b rfl
    simpa [ht, hi] using this

/-- `fetchAndUpdateResource` with flag `b` preserves `keyReady b` anywhere. -/
theorem keyReady_fetchAndUpdateResource_preserve {db : DB} {t i : String} {b : Bool}
    (t2 i2 : String) (hk : keyReady b db t i) :
    keyReady b (fetchAndUpdateResource db t2 i2 b) t i := by
  unfold fetchAndUpdateResource
  cases h : db.getResource t2 i2 with
  | none => exact hk
  | some o =>
    simp only [updateResourceReady]
    exact keyReady_updateResourceRow_preserve rfl hk

/-- `updateTransitiveResources` with flag `b` preserves `keyReady b`. -/
theorem keyReady_updateTransitiveResources_preserve {b : Bool} {t i : String}
    (l : List RelatedType) {db : DB} (hk : keyReady b db t i) :
    keyReady b (updateTransitiveResources db l b) t i := by
  induction l generalizing db with
  | nil => exact hk
  | cons tr rest ih =>
    simp only [updateTransitiveResources]
    by_cases hc : tr.operationType = OpType.create
    · simp only [hc, if_pos]
      exact ih (keyReady_fetchAndUpdateResource_preserve _ _ hk)
    · simp only [hc, if_neg, ite_false]
      exact ih hk

/-- `updateTransitiveResources` establishes `keyReady b` at the key of every
transitive CREATE entry. -/
theorem keyReady_updateTransitiveResources_self {b : Bool}
    (l : List RelatedType) {db : DB} {tr : RelatedType} (htr : tr ∈ l)
    (hc : tr.operationType = OpType.create) :
    keyReady b (updateTransitiveResources db l b) tr.relType tr.id := by
  induction l generalizing db with
  | nil => cases htr
  | cons hd rest ih =>
    simp only [updateTransitiveResources]
    rcases List.mem_cons.mp htr with rfl | hmem
    · simp only [hc, if_pos]
      exact keyReady_updateTransitiveResources_preserve rest
        (keyReady_fetchAndUpdateResource_self db tr.relType tr.id b)
    · exact ih hmem

/-- `keyReady` only looks at the resource rows. -/
theorem keyReady_congr {b : Bool} {t i : String} {db db2 : DB}
    (h : db2.resources = db.resources) (hk : keyReady b db t i) :
    keyReady b db2 t i := by
  intro r hr
  exact hk r (h ▸ hr)

/-- Operation writes leave the resource rows untouched. -/
theorem updateOperation_resources (db : DB) (now : Nat) (op : Operation) :
    (db.updateOperation now op).resources = db.resources := rfl

/-- Operation creates leave the resource rows untouched. -/
theorem createOperation_resources (db : DB) (op : Operation) :
    (db.createOperation op).resources = db.resources := rfl

/-- `updateOperationState` leaves the resource rows untouched. -/
theorem updateOperationState_resources (now : Nat) (db : DB) (op : Operation)
    (st : OpState) (e : Option SMError) :
    ((updateOperationState now db op st e).2).resources = db.resources := rfl

/-- The in-memory operation produced by `updateOperationState`. -/
theorem updateOperationState_fst (now : Nat) (db : DB) (op : Operation)
    (st : OpState) (e : Option SMError) :
    (updateOperationState now db op st e).1 =
      { op with state := st, errors := appendOnceErrors op.errors e } := rfl

/-- The repository produced by `updateOperationState`. -/
theorem updateOperationState_snd (now : Nat) (db : DB) (op : Operation)
    (st : OpState) (e : Option SMError) :
    (updateOperationState now db op st e).2 =
      db.updateOperation now (updateOperationState now db op st e).1 := rfl

/-- `storeOrUpdateOperation` leaves the resource rows untouched. -/
theorem storeOrUpdateOperation_resources (now : Nat) (db : DB) (op : Operation)
    (lastOperation : Option Operation) :
    ((storeOrUpdateOperation now db op lastOperation).2).resources = db.resources := by
  unfold storeOrUpdateOperation
  cases lastOperation with
  | none => rfl
  | some l =>
    dsimp only
    split
    · rfl
    · split <;> rfl

/-- `executeOperationPreconditions` leaves the resource rows untouched. -/
theorem executeOperationPreconditions_resources (cfg : Config) (now : Nat)
    (db : DB) (op : Operation) :
    ((executeOperationPreconditions cfg now db op).2).resources = db.resources := by
  unfold executeOperationPreconditions
  split
  · rfl
  · split
    · rfl
    · split
      · exact storeOrUpdateOperation_resources now db op none
      · split
        · rfl
        · exact storeOrUpdateOperation_resources now db op _

/-- `scheduleAsync` leaves the resource rows untouched. -/
theorem scheduleAsync_resources (cfg : Config) (now : Nat) (s : SchedState)
    (op : Operation) (act : ActionTag) :
    ((scheduleAsync cfg now s op act).2).db.resources = s.db.resources := by
  unfold scheduleAsync
  split
  · split
    · rfl
    · rename_i db2 heq
      have := executeOperationPreconditions_resources cfg now s.db op
      rw [heq] at this
      exact this
  · rfl

/-- Rows of an updated operation list that carry the written id are exactly the
written row. -/
theorem updateOperation_row_of_id {db : DB} {now : Nat} {op : Operation}
    {o : Operation} (ho : o ∈ (db.updateOperation now op).operations)
    (hid : o.id = op.id) : o = { op with updatedAt := now } := by
  simp only [DB.updateOperation, List.mem_map] at ho
  obtain ⟨a, _, rfl⟩ := ho
  by_cases hc : (a.id == op.id) = true
  · simp [hc]
  · simp only [hc, if_neg, Bool.not_eq_true] at hid ⊢
    simp only [beq_iff_eq] at hc
    exact absurd hid hc

/-- After writing an operation with state `st`, every row carrying its id has
state `st`. -/
theorem opRowsHaveState_updateOperation_self {db : DB} {now : Nat}
    {op : Operation} {st : OpState} (h : op.state = st) :
    opRowsHaveState (db.updateOperation now op) op.id st := by
  intro o ho hid
  rw [updateOperation_row_of_id ho hid]
  exact h

/-- Writing an operation preserves `opRowsHaveState` provided the written row
itself satisfies it. -/
theorem opRowsHaveState_updateOperation_preserve {db : DB} {now : Nat}
    {op : Operation} {opID : String} {st : OpState}
    (h2 : op.id = opID → op.state = st) (hpre : opRowsHaveState db opID st) :
    opRowsHaveState (db.updateOperation now op) opID st := by
  intro o ho hid
  simp only [DB.updateOperation, List.mem_map] at ho
  obtain ⟨a, ha, rfl⟩ := ho
  by_cases hc : (a.id == op.id) = true
  · simp only [hc, if_pos] at hid ⊢
    exact h2 hid
  · simp only [hc, if_neg, Bool.not_eq_true] at hid ⊢
    exact hpre a ha hid

/-- Creating an operation row preserves `opRowsHaveState` provided the created
row itself satisfies it. -/
theorem opRowsHaveState_createOperation_preserve {db : DB} {op : Operation}
    {opID : String} {st : OpState} (h2 : op.id = opID → op.state = st)
    (hpre : opRowsHaveState db opID st) :
    opRowsHaveState (db.createOperation op) opID st := by
  intro o ho hid
  simp only [DB.createOperation, List.mem_append, List.mem_singleton] at ho
  rcases ho with ho | rfl
  · exact hpre o ho hid
  · exact h2 hid

/-- `storeOrUpdateOperation` preserves `opRowsHaveState` provided the stored
operation itself satisfies it. -/
theorem opRowsHaveState_storeOrUpdateOperation {now : Nat} {db : DB}
    {op : Operation} {lastOperation : Option Operation} {opID : String}
    {st : OpState} (h2 : op.id = opID → op.state = st)
    (hpre : opRowsHaveState db opID st) :
    opRowsHaveState ((storeOrUpdateOperation now db op lastOperation).2) opID st := by
  unfold storeOrUpdateOperation
  cases lastOperation with
  | none => exact opRowsHaveState_createOperation_preserve h2 hpre
  | some l =>
    dsimp only
    split
    · exact opRowsHaveState_createOperation_preserve h2 hpre
    · split
      · exact opRowsHaveState_updateOperation_preserve h2 hpre
      · exact hpre

/-- `executeOperationPreconditions` preserves `opRowsHaveState` provided the
submitted operation itself satisfies it. -/
theorem opRowsHaveState_executeOperationPreconditions {cfg : Config} {now : Nat}
    {db : DB} {op : Operation} {opID : String} {st : OpState}
    (h2 : op.id = opID → op.state = st) (hpre : opRowsHaveState db opID st) :
    opRowsHaveState ((executeOperationPreconditions cfg now db op).2) opID st := by
  unfold executeOperationPreconditions
  split
  · exact hpre
  · split
    · exact hpre
    · split
      · exact opRowsHaveState_storeOrUpdateOperation h2 hpre
      · split
        · exact hpre
        · exact opRowsHaveState_storeOrUpdateOperation h2 hpre

/-- `scheduleAsync` preserves `opRowsHaveState` provided the admitted operation
itself satisfies it. -/
theorem opRowsHaveState_scheduleAsync {cfg : Config} {now : Nat} {s : SchedState}
    {op : Operation} {act : ActionTag} {opID : String} {st : OpState}
    (h2 : op.id = opID → op.state = st) (hpre : opRowsHaveState s.db opID st) :
    opRowsHaveState ((scheduleAsync cfg now s op act).2).db opID st := by
  unfold scheduleAsync
  split
  · split
    · exact hpre
    · rename_i db2 heq
      have := @opRowsHaveState_executeOperationPreconditions cfg now s.db op opID st h2 hpre
      rw [heq] at this
      exact this
  · exact hpre

/-- The in-memory operation mutated by the failure transaction. -/
theorem failureTransaction_fst (now : Nat) (db : DB) (actionError : SMError)
    (opAfterJob : Operation) :
    (failureTransaction now db actionError opAfterJob).1 =
      { opAfterJob with
        state := OpState.FAILED
        errors := appendOnceErrors opAfterJob.errors (some actionError) } := rfl

/-- After the failure transaction, every row carrying the operation's id is
FAILED. -/
theorem failureTransaction_opRows (now : Nat) (db : DB) (actionError : SMError)
    (opAfterJob : Operation) :
    opRowsHaveState (failureTransaction now db actionError opAfterJob).2
      opAfterJob.id OpState.FAILED := by
  unfold failureTransaction
  exact opRowsHaveState_updateOperation_self rfl

/-- For a CREATE whose refetched state is FAILED, the failure transaction's
resource rows are those produced by the two ready-false sweeps. -/
theorem failureTransaction_resources_createFailed {now : Nat} {db : DB}
    {actionError : SMError} {opAfterJob : Operation}
    (hc : opAfterJob.opType = OpType.create) (hf : opAfterJob.state = OpState.FAILED) :
    ((failureTransaction now db actionError opAfterJob).2).resources =
      (updateTransitiveResources
        (fetchAndUpdateResource db opAfterJob.resourceType opAfterJob.resourceID false)
        opAfterJob.transitiveResources false).resources := by
  unfold failureTransaction
  rw [if_pos ⟨hc, hf⟩]
  exact updateOperationState_resources _ _ _ _ _

/-- Any predicate on the repository that holds after the failure transaction
and is preserved by the mitigation re-admission holds after the whole of
`handleActionResponseFailure`. -/
theorem handleActionResponseFailure_db_invariant (cfg : Config) (now : Nat)
    (s : SchedState) (smCtxDone : Bool) (actionError : SMError)
    (opAfterJob : Operation) (P : DB → Prop)
    (hP1 : P (failureTransaction now s.db actionError opAfterJob).2)
    (hpres : ∀ s' : SchedState, P s'.db →
      P ((scheduleAsync cfg now s'
          (failureTransaction now s.db actionError opAfterJob).1
          (ActionTag.syntheticDelete opAfterJob.resourceType opAfterJob.resourceID)).2).db) :
    P ((handleActionResponseFailure cfg now s smCtxDone actionError opAfterJob).2).db := by
  simp only [handleActionResponseFailure]
  split
  · split
    · exact hP1
    · split
      · rename_i orphanErr s2 heq
        have h3 := hpres
          { s with db := (failureTransaction now s.db actionError opAfterJob).2 } hP1
        rw [heq] at h3
        exact h3
      · rename_i s2 heq
        have h3 := hpres
          { s with db := (failureTransaction now s.db actionError opAfterJob).2 } hP1
        rw [heq] at h3
        exact h3
  · exact hP1

/-- A successful `scheduleAsync` admission appends exactly one worker, running
the given action for the given operation. -/
theorem scheduleAsync_ok_pending {cfg : Config} {now : Nat} {s : SchedState}
    {op : Operation} {act : ActionTag} {s2 : SchedState}
    (h : scheduleAsync cfg now s op act = (none, s2)) :
    s2.pending = s.pending ++ [(op, act)] := by
  unfold scheduleAsync at h
  split at h
  · split at h
    · simp at h
    · have h2 := congrArg Prod.snd h
      dsimp only at h2
      rw [← h2]
  · simp at h

/-- Every row carrying the written operation's id after `updateOperationState`
is the written operation with its heartbeat bumped. -/
theorem updateOperationState_row_fields {now : Nat} {db : DB} {op : Operation}
    {st : OpState} {e : Option SMError} :
    ∀ o ∈ ((updateOperationState now db op st e).2).operations, o.id = op.id →
      o = { op with
            state := st
            errors := appendOnceErrors op.errors e
            updatedAt := now } := by
  intro o ho hid
  exact @updateOperation_row_of_id db now ((updateOperationState now db op st e).1) o ho hid

end Lemmas

/-- C1 (corrected claim): whenever the operation handed to the failure path is
a CREATE **whose refetched state is already FAILED**, the failure path sets
`Ready=false` on the primary resource (not-found ignored) and on every
transitive resource whose op-type is CREATE, in the same transaction that
writes the operation's state as FAILED; the mitigation re-admission that may
follow changes neither of these facts. -/
theorem c1_failedCreate_ready_false (cfg : Config) (now : Nat) (s : SchedState)
    (smCtxDone : Bool) (actionError : SMError) (opAfterJob : Operation)
    (hc : opAfterJob.opType = OpType.create)
    (hf : opAfterJob.state = OpState.FAILED) :
    keyReady false
        ((handleActionResponseFailure cfg now s smCtxDone actionError opAfterJob).2).db
        opAfterJob.resourceType opAfterJob.resourceID
    ∧ (∀ tr ∈ opAfterJob.transitiveResources, tr.operationType = OpType.create →
        keyReady false
          ((handleActionResponseFailure cfg now s smCtxDone actionError opAfterJob).2).db
          tr.relType tr.id)
    ∧ opRowsHaveState
        ((handleActionResponseFailure cfg now s smCtxDone actionError opAfterJob).2).db
        opAfterJob.id OpState.FAILED := by
  refine ⟨?_, ?_, ?_⟩
  · apply handleActionResponseFailure_db_invariant cfg now s smCtxDone actionError opAfterJob
      (fun db => keyReady false db opAfterJob.resourceType opAfterJob.resourceID)
    · apply keyReady_congr (failureTransaction_resources_createFailed hc hf)
      exact keyReady_updateTransitiveResources_preserve _
        (keyReady_fetchAndUpdateResource_self _ _ _ _)
    · intro s' hP
      exact keyReady_congr (scheduleAsync_resources _ _ _ _ _) hP
  · intro tr htr htrc
    apply handleActionResponseFailure_db_invariant cfg now s smCtxDone actionError opAfterJob
      (fun db => keyReady false db tr.relType tr.id)
    · apply keyReady_congr (failureTransaction_resources_createFailed hc hf)
      exact keyReady_updateTransitiveResources_self _ htr htrc
    · intro s' hP
      exact keyReady_congr (scheduleAsync_resources _ _ _ _ _) hP
  · apply handleActionResponseFailure_db_invariant cfg now s smCtxDone actionError opAfterJob
      (fun db => opRowsHaveState db opAfterJob.id OpState.FAILED)
    · exact failureTransaction_opRows now s.db actionError opAfterJob
    · intro s' hP
      exact opRowsHaveState_scheduleAsync (fun _ => rfl) hP

/-- C1 witness: on a concrete repository holding the ready resource
`binding/r1` and the FAILED re-drive of the CREATE `o1`, the failure path
leaves every `binding/r1` row un-ready. -/
theorem c1_failedCreate_ready_false_witness :
    keyReady false
      ((handleActionResponseFailure cfgW 5 sW false errBoom opWF).2).db
      opWF.resourceType opWF.resourceID :=
  (c1_failedCreate_ready_false cfgW 5 sW false errBoom opWF (by decide) (by decide)).1

/-- C1 counterexample: the claim as stated is false. The action of the CREATE
`o1` fails while its refetched state is IN_PROGRESS (the normal case); the
operation is written FAILED, yet the resource `binding/r1` keeps `Ready=true`
because the code's ready-false sweep additionally requires the refetched state
to be FAILED. -/
theorem c1_counterexample :
    opW.opType = OpType.create
    ∧ opW.state = OpState.IN_PROGRESS
    ∧ opRowsHaveState ((handleActionResponseFailure cfgW 5 sW false errBoom opW).2).db
        "o1" OpState.FAILED
    ∧ ((handleActionResponseFailure cfgW 5 sW false errBoom opW).2).db.resources =
        [{ objType := "binding", id := "r1", ready := true }] := by decide

/-- C2 (confirmed): for every pair of last and new operations, the concurrency
gate returns a `ConcurrentOperationInProgress` rejection exactly when the
spec's decision-table condition for `(last.Type, new.Type)` holds, admits
exactly when it does not, and yields the unknown-type error when either side's
type is outside CREATE/UPDATE/DELETE — with
`isLastInProgress = (State = IN_PROGRESS ∧ now < UpdatedAt + ActionTimeout)`,
`isDeletionScheduled = (DeletionScheduled ≠ 0)` and
`isReschedule = (last.Reschedule ∧ new.Reschedule)`. -/
theorem c2_gate_matches_decision_table (cfg : Config) (now : Nat)
    (operation lastOperation : Operation) :
    gateClassify (checkForConcurrentOperations cfg now operation lastOperation) =
      specGateVerdict cfg now lastOperation operation := by
  cases hl : lastOperation.opType <;> cases ho : operation.opType <;>
    simp only [checkForConcurrentOperations, specGateVerdict, hl, ho] <;>
    first
      | rfl
      | (split_ifs <;> rfl)

/-- C3 (confirmed): after the failure path persists the FAILED operation,
orphan mitigation is triggered iff `mitigationRequired` holds of the persisted
operation (`DeletionScheduled ≠ 0`, `now < DeletionScheduled +
ReconciliationOperationTimeout`, `State ≠ SUCCEEDED`); when triggered (and the
lifecycle context does not cancel the `ReschedulingDelay` wait, here
`smCtxDone = false`) the same operation — same id — is re-admitted via
`scheduleAsync` with the synthesized delete action for
`(ResourceType, ResourceID)`; a failed re-admission returns the composed
`BrokerError`, a successful one returns the original action error; and the
synthesized action deletes the `(ResourceType, ResourceID)` rows while
swallowing not-found (its error component is always nil). -/
theorem c3_orphan_mitigation (cfg : Config) (now : Nat) (s : SchedState)
    (actionError : SMError) (opAfterJob : Operation) :
    (mitigationRequired cfg now (failureTransaction now s.db actionError opAfterJob).1 = false →
      handleActionResponseFailure cfg now s false actionError opAfterJob =
        (actionError, { s with db := (failureTransaction now s.db actionError opAfterJob).2 }))
    ∧ (mitigationRequired cfg now (failureTransaction now s.db actionError opAfterJob).1 = true →
        (∀ s2 : SchedState,
          scheduleAsync cfg now
              { s with db := (failureTransaction now s.db actionError opAfterJob).2 }
              (failureTransaction now s.db actionError opAfterJob).1
              (ActionTag.syntheticDelete opAfterJob.resourceType opAfterJob.resourceID) =
            (none, s2) →
          handleActionResponseFailure cfg now s false actionError opAfterJob =
              (actionError, s2)
            ∧ s2.pending = s.pending ++
                [((failureTransaction now s.db actionError opAfterJob).1,
                  ActionTag.syntheticDelete opAfterJob.resourceType opAfterJob.resourceID)]
            ∧ (failureTransaction now s.db actionError opAfterJob).1.id = opAfterJob.id)
        ∧ (∀ (e2 : SMError) (s2 : SchedState),
            scheduleAsync cfg now
                { s with db := (failureTransaction now s.db actionError opAfterJob).2 }
                (failureTransaction now s.db actionError opAfterJob).1
                (ActionTag.syntheticDelete opAfterJob.resourceType opAfterJob.resourceID) =
              (some e2, s2) →
            handleActionResponseFailure cfg now s false actionError opAfterJob =
              (brokerError actionError e2, s2)))
    ∧ (∀ db0 : DB,
        ((deletionActionSem opAfterJob.resourceType opAfterJob.resourceID db0).1).2 = none
        ∧ ∀ r ∈ ((deletionActionSem opAfterJob.resourceType opAfterJob.resourceID db0).2).resources,
            ¬(r.objType = opAfterJob.resourceType ∧ r.id = opAfterJob.resourceID)) := by
  refine ⟨?_, ?_, ?_⟩
  · intro h
    simp only [handleActionResponseFailure, h]
    rfl
  · intro hmit
    refine ⟨?_, ?_⟩
    · intro s2 hadm
      refine ⟨?_, ?_, rfl⟩
      · simp only [handleActionResponseFailure]
        rw [if_pos hmit, if_neg Bool.false_ne_true, hadm]
      · have hp := scheduleAsync_ok_pending hadm
        exact hp
    · intro e2 s2 hadm
      simp only [handleActionResponseFailure]
      rw [if_pos hmit, if_neg Bool.false_ne_true, hadm]
  · intro db0
    refine ⟨rfl, ?_⟩
    intro r hr hk
    simp only [deletionActionSem, DB.deleteResource] at hr
    split at hr
    · rename_i hany
      have hmem := List.mem_filter.mp hr
      have hpred := hmem.2
      simp only [Bool.not_eq_true', Bool.and_eq_false_iff, beq_eq_false_iff_ne] at hpred
      rcases hpred with hp | hp
      · exact hp hk.1
      · exact hp hk.2
    · rename_i hany
      exact hany (List.any_eq_true.mpr ⟨r, hr, by simp [hk.1, hk.2]⟩)

/-- C3 witness: on the concrete FAILED re-drive `opWM` (deletion scheduled at
3, reconciliation window 10, now 5) mitigation fires, the re-admission
succeeds, the original action error is returned and exactly the synthesized
delete worker for `binding/r1` is spawned. -/
theorem c3_orphan_mitigation_witness :
    handleActionResponseFailure cfgW 5 sWM false errBoom opWM =
      (errBoom,
        (scheduleAsync cfgW 5 { sWM with db := (failureTransaction 5 sWM.db errBoom opWM).2 }
          (failureTransaction 5 sWM.db errBoom opWM).1
          (ActionTag.syntheticDelete opWM.resourceType opWM.resourceID)).2)
    ∧ ((scheduleAsync cfgW 5 { sWM with db := (failureTransaction 5 sWM.db errBoom opWM).2 }
          (failureTransaction 5 sWM.db errBoom opWM).1
          (ActionTag.syntheticDelete opWM.resourceType opWM.resourceID)).2).pending =
        sWM.pending ++ [((failureTransaction 5 sWM.db errBoom opWM).1,
          ActionTag.syntheticDelete opWM.resourceType opWM.resourceID)] := by
  have h := ((c3_orphan_mitigation cfgW 5 sWM errBoom opWM).2.1 (by decide)).1
    ((scheduleAsync cfgW 5 { sWM with db := (failureTransaction 5 sWM.db errBoom opWM).2 }
      (failureTransaction 5 sWM.db errBoom opWM).1
      (ActionTag.syntheticDelete opWM.resourceType opWM.resourceID)).2)
    (by decide)
  exact ⟨h.1, h.2.1⟩

/-- C4 (confirmed): on the success path, in one transaction, every persisted
row of the operation ends in `successFinalState` — FAILED iff the type is not
DELETE and a deletion was scheduled, SUCCEEDED otherwise with `Errors`
cleared — `DeletionScheduled` is cleared unconditionally, and for a CREATE
that reaches SUCCEEDED the action's object and every transitive CREATE
resource are marked `Ready=true`. (The hypothesis rules out the nil action
object, which would panic — claim C10.) -/
theorem c4_success_path (now : Nat) (db : DB) (actionObject : Option Obj)
    (opAfterJob : Operation)
    (hsafe : opAfterJob.opType = OpType.create →
      successFinalState opAfterJob = OpState.SUCCEEDED → actionObject.isSome = true) :
    (∀ o ∈ ((handleActionResponseSuccess now db actionObject opAfterJob).2).operations,
        o.id = opAfterJob.id →
          o.state = successFinalState opAfterJob
          ∧ o.deletionScheduled = 0
          ∧ (successFinalState opAfterJob = OpState.SUCCEEDED → o.errors = none)
          ∧ (successFinalState opAfterJob = OpState.FAILED → o.errors = opAfterJob.errors))
    ∧ (∀ ob : Obj, actionObject = some ob → opAfterJob.opType = OpType.create →
        successFinalState opAfterJob = OpState.SUCCEEDED →
          keyReady true ((handleActionResponseSuccess now db actionObject opAfterJob).2)
            ob.objType ob.id
          ∧ (∀ tr ∈ opAfterJob.transitiveResources, tr.operationType = OpType.create →
              keyReady true ((handleActionResponseSuccess now db actionObject opAfterJob).2)
                tr.relType tr.id)) := by
  by_cases hq : opAfterJob.opType ≠ OpType.delete ∧ opAfterJob.deletionScheduled ≠ 0
  · -- final state FAILED: no ready updates, errors kept
    have hfs : successFinalState opAfterJob = OpState.FAILED := by
      rw [successFinalState, if_pos hq]
    have hdb : (handleActionResponseSuccess now db actionObject opAfterJob).2 =
        (updateOperationState now db { opAfterJob with deletionScheduled := 0 }
          OpState.FAILED none).2 := by
      simp [handleActionResponseSuccess, hfs]
    simp only [hfs]
    refine ⟨?_, ?_⟩
    · intro o ho hid
      rw [hdb] at ho
      have h := updateOperationState_row_fields o ho hid
      rw [h]
      exact ⟨rfl, rfl, fun hcon => absurd hcon (by decide), fun _ => rfl⟩
    · intro ob hob hcr hcon
      exact absurd hcon (by decide)
  · -- final state SUCCEEDED: errors cleared; ready updates iff CREATE
    have hfs : successFinalState opAfterJob = OpState.SUCCEEDED := by
      rw [successFinalState, if_neg hq]
    by_cases hcr : opAfterJob.opType = OpType.create
    · obtain ⟨ob, hob⟩ : ∃ ob, actionObject = some ob :=
        Option.isSome_iff_exists.mp (hsafe hcr hfs)
      subst hob
      have hdb : (handleActionResponseSuccess now db (some ob) opAfterJob).2 =
          (updateOperationState now
            (updateTransitiveResources (db.updateResourceRow { ob with ready := true })
              opAfterJob.transitiveResources true)
            { opAfterJob with errors := none, deletionScheduled := 0 }
            OpState.SUCCEEDED none).2 := by
        simp [handleActionResponseSuccess, hfs, hcr, updateResourceReady]
      simp only [hfs]
      refine ⟨?_, ?_⟩
      · intro o ho hid
        rw [hdb] at ho
        have h := updateOperationState_row_fields o ho hid
        rw [h]
        exact ⟨rfl, rfl, fun _ => rfl, fun hcon => absurd hcon (by decide)⟩
      · intro ob2 hob2 _ _
        have hobe : ob = ob2 := by
          injection hob2
        subst hobe
        refine ⟨?_, ?_⟩
        · rw [hdb]
          apply keyReady_congr (updateOperationState_resources _ _ _ _ _)
          apply keyReady_updateTransitiveResources_preserve
          exact keyReady_updateResourceRow_self (o := { ob with ready := true }) rfl
        · intro tr htr htc
          rw [hdb]
          apply keyReady_congr (updateOperationState_resources _ _ _ _ _)
          exact keyReady_updateTransitiveResources_self _ htr htc
    · have hdb : (handleActionResponseSuccess now db actionObject opAfterJob).2 =
          (updateOperationState now db
            { opAfterJob with errors := none, deletionScheduled := 0 }
            OpState.SUCCEEDED none).2 := by
        simp [handleActionResponseSuccess, hfs, hcr]
      simp only [hfs]
      refine ⟨?_, ?_⟩
      · intro o ho hid
        rw [hdb] at ho
        have h := updateOperationState_row_fields o ho hid
        rw [h]
        exact ⟨rfl, rfl, fun _ => rfl, fun hcon => absurd hcon (by decide)⟩
      · intro ob hob hcr2 _
        exact absurd hcr2 hcr

/-- C4 witness: the concrete happy CREATE `o1` returning `binding/r1` leaves
every `binding/r1` row ready. -/
theorem c4_success_path_witness :
    keyReady true ((handleActionResponseSuccess 0 dbW (some objW) opW).2)
      "binding" "r1" :=
  ((c4_success_path 0 dbW (some objW) opW (by decide)).2 objW rfl (by decide)
    (by decide)).1

/-- C5 counterexample: the claim as stated is false. The gate admits the new
submission `newW` (same id as `lastW`, `Reschedule=false`, own
`DeletionScheduled` zero) while the LAST operation has a deletion scheduled,
so per the claim the record should be updated in place; the code instead
rejects with `operation with this id was already executed` and persists
nothing, because it tests the NEW operation's `DeletionScheduled`. -/
theorem c5_counterexample :
    checkForConcurrentOperations cfgW 1 newW lastW = none
    ∧ lastW.deletionScheduled ≠ 0
    ∧ newW.reschedule = false
    ∧ storeOrUpdateOperation 1 dbW5 newW (some lastW) = (some alreadyExecutedErr, dbW5) := by
  decide

/-- C5 (corrected claim): `storeOrUpdateOperation` creates a new record when
there is no last operation or the ids differ, updates in place when the NEW
operation is a reschedule or the NEW operation's `DeletionScheduled` is
non-zero, and otherwise rejects with `operation with this id was already
executed` without persisting anything. -/
theorem c5_store_decision (now : Nat) (db : DB) (operation : Operation)
    (lastOperation : Option Operation) :
    storeDecisionOf now db operation lastOperation =
      storeDecisionAmended operation lastOperation := by
  unfold storeDecisionOf storeDecisionAmended storeOrUpdateOperation
  cases lastOperation with
  | none => simp [DB.createOperation]
  | some l =>
    by_cases h1 : operation.id ≠ l.id
    · simp [h1, DB.createOperation]
    · by_cases h2 : operation.reschedule = true ∨ operation.deletionScheduled ≠ 0
      · simp [h1, h2, DB.updateOperation]
      · simp [h1, h2]

/-- C6 (confirmed): `Errors` is append-once. The single write point
`updateOperationState` stores a new payload only when the operation's errors
are empty — both on the in-memory operation and on every persisted row — and
in particular the failure transaction never overwrites a non-empty payload. -/
theorem c6_errors_append_once (now : Nat) (db : DB) (operation : Operation)
    (st : OpState) (opErr : Option SMError) (actionError : SMError) :
    ((updateOperationState now db operation st opErr).1.errors =
        if operation.errors.isSome then operation.errors else opErr)
    ∧ (∀ o ∈ ((updateOperationState now db operation st opErr).2).operations,
        o.id = operation.id →
          o.errors = if operation.errors.isSome then operation.errors else opErr)
    ∧ (operation.errors ≠ none →
        ((failureTransaction now db actionError operation).1).errors =
          operation.errors) := by
  have happ : ∀ old e2 : Option SMError,
      appendOnceErrors old e2 = if old.isSome then old else e2 := by
    intro old e2
    cases e2 <;> cases old <;> rfl
  refine ⟨?_, ?_, ?_⟩
  · rw [updateOperationState_fst]
    exact happ operation.errors opErr
  · intro o ho hid
    rw [updateOperationState_row_fields o ho hid]
    exact happ operation.errors opErr
  · intro hne
    rw [failureTransaction_fst]
    show appendOnceErrors operation.errors (some actionError) = operation.errors
    rw [happ]
    rw [if_pos (Option.isSome_iff_ne_none.mpr hne)]

/-- C6 witness: an operation already carrying the root-cause error `boom`
keeps it across a FAILED write with a different error. -/
theorem c6_errors_append_once_witness :
    ((failureTransaction 0 dbW errBoom opWE).1).errors = opWE.errors :=
  (c6_errors_append_once 0 dbW opWE OpState.FAILED (some jobInterruptedErr)
    errBoom).2.2 (by decide)

/-- C7 (confirmed): when all `PoolSize` worker slots are taken,
`scheduleAsync` returns `ServiceUnavailable` and the scheduler state — the
repository, the counters and the spawned workers — is exactly unchanged. -/
theorem c7_pool_saturation (cfg : Config) (now : Nat) (s : SchedState)
    (operation : Operation) (act : ActionTag)
    (h : cfg.poolSize ≤ s.busyWorkers) :
    scheduleAsync cfg now s operation act = (some serviceUnavailableErr, s) := by
  unfold scheduleAsync
  rw [if_neg (by omega)]

/-- C7 witness: a saturated pool of size 2 rejects the CREATE `o1` and leaves
the state untouched. -/
theorem c7_pool_saturation_witness :
    scheduleAsync cfgW 0 sWFull opW (ActionTag.external "a") =
      (some serviceUnavailableErr, sWFull) :=
  c7_pool_saturation cfgW 0 sWFull opW (ActionTag.external "a") (by decide)

/-- C8 (code bug): a worker whose action panics while the operation row cannot
be re-fetched (here: absent from the repository) passes the nil operation to
`updateOperationState`, panicking a second time inside the deferred recover
handler; the worker slot is NOT released and the wait-group is NOT
decremented, contradicting the claimed panic safety on every exit path. -/
theorem c8_panic_refetch_crash :
    sWEmpty.db.getOperationByID opW.id = none
    ∧ (runWorker cfgW 0 sWEmpty false opW (ActionOutcome.panics "boom")).secondaryPanic = true
    ∧ (runWorker cfgW 0 sWEmpty false opW (ActionOutcome.panics "boom")).slotReleased = false
    ∧ (runWorker cfgW 0 sWEmpty false opW (ActionOutcome.panics "boom")).wgDone = false := by
  decide

/-- C9 (confirmed): when the action returns no error and the refetched
operation says `Reschedule=true`, the reconciler returns the action's object
and the scheduler state is exactly unchanged: no state transition is
persisted, `DeletionScheduled` and `Errors` stay as stored. -/
theorem c9_reschedule_keeps_in_progress (cfg : Config) (now : Nat)
    (s : SchedState) (smCtxDone : Bool) (actionObject : Option Obj)
    (opBeforeJob opFetched : Operation)
    (h1 : s.db.getOperationByID opBeforeJob.id = some opFetched)
    (h2 : opFetched.reschedule = true) :
    handleActionResponse cfg now s smCtxDone actionObject none opBeforeJob =
      (HandleOutcome.ok actionObject, s) := by
  unfold handleActionResponse
  rw [h1]
  simp [h2]

/-- C9 witness: the stored rescheduling CREATE `o1` keeps the scheduler state
unchanged and hands back the action's object. -/
theorem c9_reschedule_keeps_in_progress_witness :
    handleActionResponse cfgW 0 sWR false (some objB) none opWR =
      (HandleOutcome.ok (some objB), sWR) :=
  c9_reschedule_keeps_in_progress cfgW 0 sWR false (some objB) opWR opWR
    (by decide) (by decide)

/-- C10 counterexample: the claim as stated is false. The CREATE `o1` whose
action returned a nil object with a nil error reaches the success path with
final state SUCCEEDED, and the reconciler DOES invoke `SetReady` on the nil
action result: the model's `panicked` outcome is produced exactly at that
dereference, with the transaction rolled back. -/
theorem c10_counterexample :
    opW.opType = OpType.create
    ∧ successFinalState opW = OpState.SUCCEEDED
    ∧ handleActionResponseSuccess 0 dbW none opW =
        (SuccessResult.panicked nilDerefPanicMsg, dbW) := by
  decide

/-- C10 (corrected claim): for every CREATE operation with no deletion
scheduled (so the success path computes SUCCEEDED) whose action returned a nil
object, the reconciler dereferences the nil action result — `SetReady` IS
invoked on a nil object — panicking and rolling back the transaction, so the
`Ready=true` update is not applied. -/
theorem c10_nil_object_panics (now : Nat) (db : DB) (op : Operation)
    (hcr : op.opType = OpType.create) (hds : op.deletionScheduled = 0) :
    handleActionResponseSuccess now db none op =
      (SuccessResult.panicked nilDerefPanicMsg, db) := by
  have hfs : successFinalState op = OpState.SUCCEEDED := by
    rw [successFinalState, if_neg]
    intro hand
    exact hand.2 hds
  simp [handleActionResponseSuccess, hfs, hcr, updateResourceReady]

/-- C10 witness: the concrete CREATE `o1` with a nil action object panics at
the `SetReady` dereference and leaves the repository untouched. -/
theorem c10_nil_object_panics_witness :
    handleActionResponseSuccess 3 dbW none opW =
      (SuccessResult.panicked nilDerefPanicMsg, dbW) :=
  c10_nil_object_panics 3 dbW opW (by decide) (by decide)

end SM
